import Mathlib

-- Verification of the cloud object-store checker
-- (cloud/src/recycler/checker.cpp, cloud/src/recycler/sync_executor.h).
-- Pure parts of the program are embedded as executable Lean functions;
-- the daemon's shared mutable state is embedded as an explicit
-- transition system over traces of scanner / worker events.

-- Part 1: SyncExecutor (sync_executor.h).
-- Each submitted task has a callback; the injected thread pool may run
-- the tasks in any order (`order` is the execution schedule, a list of
-- task indices).  A task observes the shared stop token before running
-- its callback (Task::operator()); `when_all` collects results slot by
-- slot in submission order and stops at the first empty slot.

/-- Shared state of one SyncExecutor round: `_stop_token` and the
per-task result slots (`Task::_res`) indexed by submission order. -/
structure ExecState (α : Type) where
  stop_token : Bool
  res : List (Option α)
deriving DecidableEq

/-- Task::operator() of sync_executor.h: if the stop token is already
set, return without executing; otherwise run the callback, set the stop
token when the cancel predicate holds for the result, and store the
result in this task's slot. -/
def runTask {α : Type} (cancel : α → Bool) (callbacks : List α)
    (s : ExecState α) (i : Nat) : ExecState α :=
  if s.stop_token then s
  else
    match callbacks.get? i with
    | none => s
    | some t => ⟨s.stop_token || cancel t, s.res.set i (some t)⟩

/-- Initial executor state: stop token clear, all result slots empty. -/
def initExec (α : Type) (m : Nat) : ExecState α :=
  ⟨false, List.replicate m none⟩

/-- Run all submitted tasks in the schedule order chosen by the pool. -/
def runSchedule {α : Type} (cancel : α → Bool) (callbacks : List α)
    (order : List Nat) : ExecState α :=
  order.foldl (runTask cancel callbacks) (initExec α callbacks.length)

/-- The result-collection loop of `when_all`: walk the slots in
submission order and break at the first task without a result. -/
def collectResults {α : Type} : List (Option α) → List α
  | [] => []
  | none :: _ => []
  | some t :: rest => t :: collectResults rest

/-- SyncExecutor::when_all: collected results plus the `finished` flag
`*finished = _tasks.size() == res.size()`. -/
def when_all {α : Type} (callbacks : List α) (s : ExecState α) : List α × Bool :=
  (collectResults s.res, decide (callbacks.length = (collectResults s.res).length))

/-- Slot `i` holds the result of callback `i`. -/
def SlotDone {α : Type} (callbacks : List α) (s : ExecState α) (i : Nat) : Prop :=
  ∃ t, callbacks.get? i = some t ∧ s.res.get? i = some (some t)

-- Part 2: the tail of the daemon's check worker (Checker::start,
-- checker.cpp lines 166-180).  After `do_check` (and, with
-- enable_inverted_check, `do_inverted_check`) the worker decides
-- whether to call finish_instance_recycle_job and whether to erase the
-- instance from working_instance_map_.

/-- Combination of the forward and inverted check results:
`ret = do_check(); if (enable_inverted_check) { if (do_inverted_check() != 0) ret = -1; }`. -/
def combinedRet (checkRet : Int) (enableInverted : Bool) (invertedRet : Int) : Int :=
  if enableInverted then (if invertedRet ≠ 0 then -1 else checkRet) else checkRet

/-- Observable effects of the worker after the checks: whether
finish_instance_recycle_job is called, with which `success` argument,
and whether the instance is erased from working_instance_map_. -/
structure WorkerEnd where
  finishCalled : Bool
  finishSuccess : Option Bool
  erasedFromWorking : Bool
deriving DecidableEq

/-- Worker epilogue (checker.cpp lines 170-179): on `ret == -1` the
worker thread returns at once (no finish, no erase); otherwise it calls
finish with `success = (ret == 0)` unless the checker was stopped, and
erases the instance from working_instance_map_. -/
def workerAfterCheck (ret : Int) (checkerStopped : Bool) : WorkerEnd :=
  if ret = -1 then ⟨false, none, false⟩
  else if checkerStopped then ⟨false, none, true⟩
  else ⟨true, some (decide (ret = 0)), true⟩

-- Part 3: Checker::do_inspect (checker.cpp lines 235-308).
-- The KV store, the protobuf parses and get_bucket_lifecycle are
-- external collaborators; an InspectEnv records their answers for the
-- one instance being inspected.

/-- Error codes of Transaction::get used by do_inspect. -/
inductive KvErr
  | ok
  | keyNotFound
  | transport
deriving DecidableEq

/-- The fields of a parsed JobRecyclePB that do_inspect reads. -/
structure JobRecyclePB where
  last_ctime_ms : Option Int
  status : Nat
  last_success_time_ms : Int
deriving DecidableEq

/-- INT64_MAX, the `no S3 bucket` marker of get_bucket_lifecycle. -/
def int64Max : Int := 2 ^ 63 - 1

/-- Answers of the collaborators during one do_inspect call:
whether create_txn succeeds, the result of `txn->get(check_job_key)`,
the parse of its value (`none` means ParseFromString failed; only
consulted when the get returned ok), whether InstanceChecker::init
succeeds, the result of get_bucket_lifecycle (`none` means it returned
non-zero), the instance's ctime, the current time and the configured
reserved_buffer_days. -/
structure InspectEnv where
  create_txn_ok : Bool
  get_err : KvErr
  job_val : Option JobRecyclePB
  init_ok : Bool
  lifecycle_ret : Option Int
  instance_ctime : Int
  now : Int
  reserved_buffer_days : Int
deriving DecidableEq

/-- Observable outcome of do_inspect: whether the expiration comparison
was reached, the value exported to g_bvar_checker_last_success_time_ms
(if any), the chosen last_ctime_ms, the computed expiration_ms, and
whether the `check risks` WARNING alarm was emitted. -/
structure InspectOutcome where
  completed : Bool
  exported : Option Int
  last_ctime_ms : Int
  expiration_ms : Int
  alarmed : Bool
deriving DecidableEq

/-- Outcome of an early return of do_inspect. -/
def noInspect : InspectOutcome := ⟨false, none, 0, 0, false⟩

/-- Checker::do_inspect.  Early returns: create_txn failure, a get
error other than key-not-found, init failure, get_bucket_lifecycle
failure, or no S3 bucket (lifecycle INT64_MAX).  The lambda
`has_last_ctime()` is evaluated only when the key was found; it fails
on a malformed value or a missing last_ctime_ms field, and exports
last_success_time_ms exactly when it succeeds.  last_ctime_ms falls
back to instance.ctime; expiration_ms subtracts reserved_buffer_days
from the bucket lifecycle only when the lifecycle is larger; the alarm
fires when now - last_ctime_ms >= expiration_ms. -/
def do_inspect (env : InspectEnv) : InspectOutcome :=
  if env.create_txn_ok = false then noInspect
  else if env.get_err = KvErr.transport then noInspect
  else if env.init_ok = false then noInspect
  else
    match env.lifecycle_ret with
    | none => noInspect
    | some lifecycle_days =>
      if lifecycle_days = int64Max then noInspect
      else
        let probe : Option (Int × Int) :=
          if env.get_err = KvErr.keyNotFound then none
          else
            match env.job_val with
            | none => none
            | some job =>
              match job.last_ctime_ms with
              | none => none
              | some lc => some (lc, job.last_success_time_ms)
        let expiration : Int :=
          if lifecycle_days > env.reserved_buffer_days
          then (lifecycle_days - env.reserved_buffer_days) * 86400000
          else lifecycle_days * 86400000
        match probe with
        | some (lc, ls) =>
          ⟨true, some ls, lc, expiration, decide (env.now - lc ≥ expiration)⟩
        | none =>
          ⟨true, none, env.instance_ctime, expiration,
            decide (env.now - env.instance_ctime ≥ expiration)⟩

-- Part 4: the object-key parsing of InstanceChecker::do_inverted_check
-- (checker.cpp lines 573-594), layout data/{tablet_id}/{rowset_id}_{seg_num}.dat.

/-- butil::SplitString(obj_key, c, &str): split a string at every
occurrence of the delimiter, keeping empty pieces (object keys contain
no whitespace, so the trim of empty-adjacent whitespace is a no-op). -/
def splitOnCharAux (c : Char) : List Char → List Char → List (List Char)
  | [], acc => [acc.reverse]
  | x :: xs, acc =>
    if x = c then acc.reverse :: splitOnCharAux c xs []
    else splitOnCharAux c xs (x :: acc)

/-- Split a string on one delimiter character. -/
def splitOnChar (c : Char) (s : String) : List String :=
  (splitOnCharAux c s.data []).map String.mk

/-- Leading-whitespace skip of C `atol`. -/
def dropLeadingWs : List Char → List Char
  | [] => []
  | c :: cs =>
    if c = ' ' ∨ c = '\t' ∨ c = '\n' ∨ c = '\x0b' ∨ c = '\x0c' ∨ c = '\r'
    then dropLeadingWs cs else c :: cs

/-- Value of the leading decimal digits of a character list (C `atol`
stops at the first non-digit and returns 0 when there is none). -/
def leadingDigitsVal : List Char → Nat → Nat
  | [], acc => acc
  | c :: cs, acc =>
    if c.isDigit then leadingDigitsVal cs (acc * 10 + (c.toNat - '0'.toNat)) else acc

/-- C `atol`: optional whitespace, optional sign, leading digits. -/
def atol (s : String) : Int :=
  match dropLeadingWs s.data with
  | '-' :: cs => -(leadingDigitsVal cs 0 : Int)
  | '+' :: cs => (leadingDigitsVal cs 0 : Int)
  | cs => (leadingDigitsVal cs 0 : Int)

/-- `str.back().substr(0, str.back().find('_'))` guarded by
`find('_') != npos`: the prefix of `s` up to its first underscore, or
`none` when `s` has no underscore. -/
def rowsetIdOf (s : String) : Option String :=
  if '_' ∈ s.data then some (String.mk (s.data.takeWhile fun c => c ≠ '_')) else none

/-- The parsing portion of check_segment_file: split the object key on
'/', require at least 3 components, read tablet_id from component 1
with atol (reject values <= 0), and read rowset_id as the prefix of
the last component up to its first underscore. -/
def parse_segment_key (obj_key : String) : Option (Int × String) :=
  let str := splitOnChar '/' obj_key
  if str.length < 3 then none
  else
    let tablet_id := atol (str.getD 1 "")
    if tablet_id ≤ 0 then none
    else
      match rowsetIdOf (str.getLastD "") with
      | some rowset_id => some (tablet_id, rowset_id)
      | none => none

/-- Rowset-id cache of do_inverted_check (struct TabletRowsets). -/
structure TabletRowsets where
  tablet_id : Int
  rowset_ids : List String
deriving DecidableEq

/-- Collaborator answers for the inverted check: for a tablet id, the
rowset ids its meta_rowset range scan inserted into the cache, and
whether the scan completed cleanly (malformed values and iterator
invalidation make it fail). -/
structure InvEnv where
  scan : Int → List String × Bool

/-- check_segment_file (checker.cpp lines 573-627): parse failure is a
failure; on a cache hit the rowset id must be in the cached set; on a
cache miss the cache is repopulated from KV (a failed scan fails the
key; after a clean repopulation the function returns 0 without testing
membership of this key's rowset id). -/
def check_segment_file (env : InvEnv) (cache : TabletRowsets)
    (obj_key : String) : Int × TabletRowsets :=
  match parse_segment_key obj_key with
  | none => (-1, cache)
  | some (tablet_id, rowset_id) =>
    if cache.tablet_id = tablet_id then
      (if rowset_id ∈ cache.rowset_ids then 0 else -1, cache)
    else
      let (ids, ok) := env.scan tablet_id
      if ok then (0, ⟨tablet_id, ids⟩) else (-1, ⟨tablet_id, ids⟩)

/-- One iteration of the listing loop of do_inverted_check (lines
641-649): state is (cache, num_scanned, num_check_failed); a non-zero
check_segment_file result counts as a check failure. -/
def invertedStep (env : InvEnv) (s : TabletRowsets × Nat × Nat)
    (path : String) : TabletRowsets × Nat × Nat :=
  let (ret, cache) := check_segment_file env s.1 path
  (cache, s.2.1 + 1, s.2.2 + (if ret ≠ 0 then 1 else 0))

-- Part 5: InstanceChecker::do_check (checker.cpp lines 409-524).
-- The KV range scan, the protobuf parses, the storage-vault registry,
-- the accessors' directory listings and the key_exist re-probe are
-- external collaborators recorded in a CheckEnv.

/-- The fields of a parsed RowsetMetaCloudPB that do_check reads. -/
structure RowsetMetaCloudPB where
  tablet_id : Int
  rowset_id_v2 : String
  resource_id : String
  num_segments : Nat
deriving DecidableEq

/-- One entry of a directory listing (path and size). -/
structure FileMeta where
  path : String
  size : Int
deriving DecidableEq

/-- A storage vault as do_check uses it: the path layout (tablet_path
and segment_path are pure functions of the layout) plus its accessor's
list_directory, whose `none` result stands for a non-zero return. -/
structure StorageVault where
  tablet_path : Int → String
  segment_path : Int → String → Nat → String
  list_directory : String → Option (List FileMeta)

/-- Environment of one do_check run: the resource_id → StorageVault
registry built by init, the key_exist re-probe (0 found / 1 not found /
negative error), the visible meta_rowset range scan as a list of
(key, parsed value) pairs (`none` = malformed value), and whether the
range iterator is still valid after exhaustion. -/
structure CheckEnv where
  storage_vault_map : String → Option StorageVault
  key_exist : String → Int
  rowset_kvs : List (String × Option RowsetMetaCloudPB)
  range_valid : Bool

/-- Counters of do_check, plus the list of paths for which the
`object not exist` warning of line 496 was logged. -/
structure CheckStats where
  num_scanned : Nat
  num_scanned_with_segment : Nat
  num_check_failed : Nat
  instance_volume : Int
  warned_paths : List String
deriving DecidableEq

/-- Counters at the start of do_check. -/
def initStats : CheckStats := ⟨0, 0, 0, 0, []⟩

/-- The single-slot tablet cache (struct TabletFiles). -/
structure TabletFiles where
  tablet_id : Int
  files : List String
  storage_vault : Option StorageVault

/-- The cleared cache `TabletFiles {}`. -/
def TabletFiles.empty : TabletFiles := ⟨0, [], none⟩

/-- Sum of the sizes of a directory listing (tablet_volume). -/
def listVolume (fl : List FileMeta) : Int :=
  fl.foldl (fun acc f => acc + f.size) 0

/-- The body of the per-segment loop (checker.cpp lines 483-497): a
path present in the tablet's file set is fine; otherwise the rowset key
is re-probed in a fresh transaction and key-not-found (1) means the
rowset was concurrently deleted, also fine; otherwise the failure
counter is bumped and the path is logged. -/
def checkOneSegment (env : CheckEnv) (vault : StorageVault)
    (files : List String) (rs : RowsetMetaCloudPB) (key : String)
    (st : CheckStats) (i : Nat) : CheckStats :=
  let path := vault.segment_path rs.tablet_id rs.rowset_id_v2 i
  if path ∈ files then st
  else if env.key_exist key = 1 then st
  else { st with num_check_failed := st.num_check_failed + 1,
                 warned_paths := st.warned_paths ++ [path] }

/-- The per-segment loop over indices 0 .. num_segments-1. -/
def checkSegments (env : CheckEnv) (vault : StorageVault)
    (files : List String) (rs : RowsetMetaCloudPB) (key : String)
    (st : CheckStats) : CheckStats :=
  (List.range rs.num_segments).foldl (checkOneSegment env vault files rs key) st

/-- check_rowset_objects (checker.cpp lines 441-498).  `none` models
the std::bad_optional_access crash of `storage_vault.value()` that the
C++ reaches when the cache slot matches the rowset's tablet_id while
holding no vault (only possible for tablet_id 0).  A rowset without
segments is skipped.  On a cache miss the cache is cleared, the vault
is looked up (a missing resource_id is a counted failure), the tablet
directory is listed (a failed listing is a counted failure), the
tablet's volume is accumulated, and the segments are checked. -/
def check_rowset_objects (env : CheckEnv) (rs : RowsetMetaCloudPB)
    (key : String) (cache : TabletFiles) (st : CheckStats) :
    Option (TabletFiles × CheckStats) :=
  if rs.num_segments = 0 then some (cache, st)
  else
    let st := { st with num_scanned_with_segment := st.num_scanned_with_segment + 1 }
    if cache.tablet_id ≠ rs.tablet_id then
      match env.storage_vault_map rs.resource_id with
      | none =>
        some (TabletFiles.empty,
              { st with num_check_failed := st.num_check_failed + 1 })
      | some v =>
        match v.list_directory (v.tablet_path rs.tablet_id) with
        | none =>
          some (⟨0, [], some v⟩,
                { st with num_check_failed := st.num_check_failed + 1 })
        | some fl =>
          let cache' : TabletFiles := ⟨rs.tablet_id, fl.map FileMeta.path, some v⟩
          let st := { st with instance_volume := st.instance_volume + listVolume fl }
          some (cache', checkSegments env v cache'.files rs key st)
    else
      match cache.storage_vault with
      | none => none
      | some v => some (cache, checkSegments env v cache.files rs key st)

/-- The main range-scan loop of do_check (lines 504-516): every record
bumps num_scanned; a malformed value is a counted failure; otherwise
check_rowset_objects runs. -/
def do_check_loop (env : CheckEnv) :
    List (String × Option RowsetMetaCloudPB) → TabletFiles → CheckStats →
    Option (TabletFiles × CheckStats)
  | [], cache, st => some (cache, st)
  | (k, pv) :: rest, cache, st =>
    let st := { st with num_scanned := st.num_scanned + 1 }
    match pv with
    | none =>
      do_check_loop env rest cache
        { st with num_check_failed := st.num_check_failed + 1 }
    | some rs =>
      match check_rowset_objects env rs k cache st with
      | none => none
      | some (cache', st') => do_check_loop env rest cache' st'

/-- InstanceChecker::do_check: run the scan; if the range iterator is
invalid after exhaustion return -1; otherwise 0 on a clean scan and -2
when any check failed.  The counters are reported on every exit. -/
def do_check (env : CheckEnv) : Option (Int × CheckStats) :=
  match do_check_loop env env.rowset_kvs TabletFiles.empty initStats with
  | none => none
  | some (_, st) =>
    if env.range_valid then
      some ((if st.num_check_failed = 0 then 0 else -2), st)
    else some (-1, st)

/-- A scan record is well formed and clean-or-concurrently-deleted: it
parses, its tablet id is non-zero, its resource id resolves to a vault,
that vault lists the tablet directory successfully, and every segment
path is either present in the listing or the rowset key re-probe
reports key-not-found. -/
def RecordClean (env : CheckEnv) (kp : String × Option RowsetMetaCloudPB) : Prop :=
  ∃ rs, kp.2 = some rs ∧ rs.tablet_id ≠ 0 ∧
    ∃ v, env.storage_vault_map rs.resource_id = some v ∧
      ∃ fl, v.list_directory (v.tablet_path rs.tablet_id) = some fl ∧
        ∀ i, i < rs.num_segments →
          v.segment_path rs.tablet_id rs.rowset_id_v2 i ∈ fl.map FileMeta.path ∨
            env.key_exist kp.1 = 1

/-- A scan record is well formed and complete: as RecordClean, with
every segment path actually present in the tablet's listing. -/
def RecordComplete (env : CheckEnv) (kp : String × Option RowsetMetaCloudPB) : Prop :=
  ∃ rs, kp.2 = some rs ∧ rs.tablet_id ≠ 0 ∧
    ∃ v, env.storage_vault_map rs.resource_id = some v ∧
      ∃ fl, v.list_directory (v.tablet_path rs.tablet_id) = some fl ∧
        ∀ i, i < rs.num_segments →
          v.segment_path rs.tablet_id rs.rowset_id_v2 i ∈ fl.map FileMeta.path

/-- All records of one tablet carry one resource id (rowsets of a
tablet live in one vault; the single-slot cache relies on it). -/
def ResourceConsistent (env : CheckEnv) : Prop :=
  ∀ kp1 ∈ env.rowset_kvs, ∀ kp2 ∈ env.rowset_kvs, ∀ rs1 rs2,
    kp1.2 = some rs1 → kp2.2 = some rs2 → rs1.tablet_id = rs2.tablet_id →
      rs1.resource_id = rs2.resource_id

/-- Invariant of the tablet cache during the scan: either the cleared
slot, or a slot faithfully built from the vault shared by every record
of its tablet. -/
def CacheOK (env : CheckEnv) (cache : TabletFiles) : Prop :=
  (cache.tablet_id = 0 ∧ cache.files = [] ∧ cache.storage_vault = none) ∨
  ∃ res v fl,
    env.storage_vault_map res = some v ∧
    v.list_directory (v.tablet_path cache.tablet_id) = some fl ∧
    cache.files = fl.map FileMeta.path ∧
    cache.storage_vault = some v ∧
    cache.tablet_id ≠ 0 ∧
    ∀ kp ∈ env.rowset_kvs, ∀ rs, kp.2 = some rs →
      rs.tablet_id = cache.tablet_id → rs.resource_id = res

-- Part 6: the checker daemon's shared queue state (Checker::start,
-- checker.cpp lines 74-187) as a transition system.  Shared state is
-- pending_instance_queue_, pending_instance_map_ (its key set) and
-- working_instance_map_ (its key set); each worker thread is a phase
-- machine.  Every event below is one critical section (or one step
-- between critical sections) of the scanner or of a worker.

/-- Phase of one check worker thread with respect to one instance:
idle (waiting on the queue); claimed (just popped an instance, before
re-checking working_instance_map_); checked (passed the re-check and
init, before the prepare outcome); running (inserted into
working_instance_map_, running the checks); dead (the thread returned,
as it does on stop or on a -1 check result). -/
inductive WPhase
  | idle
  | claimed (id : String)
  | checked (id : String)
  | running (id : String)
  | dead
deriving DecidableEq

/-- Shared daemon state.  everEnqueued is a ghost log of every id the
scanner inserted into pending_instance_map_; the code never reads it. -/
structure DaemonState where
  pendingQueue : List String
  pendingSet : List String
  workingSet : List String
  everEnqueued : List String
  workers : List WPhase
deriving DecidableEq

/-- Initial daemon state with `w` idle worker threads. -/
def initDaemon (w : Nat) : DaemonState :=
  ⟨[], [], [], [], List.replicate w WPhase.idle⟩

/-- Scanner and worker events.  scanEnqueue is the scanner's treatment
of one filtered, non-deleted instance (lines 91-103): insert into
pending_instance_map_, and push onto the queue only when the insert was
fresh.  workerPop is lines 127-137 (pop the head, erase it from the
pending map).  workerSkipWorking / workerPassWorking are the re-check
of working_instance_map_ at lines 139-143.  workerPrepareFail covers a
failed init or a failed prepare (continue); workerPrepareOk is a
successful prepare followed by the working_instance_map_ emplace at
lines 157-160.  workerFinish is the erase at lines 176-179;
workerAbort is a worker thread returning while its instance is still
in working_instance_map_ (stop at line 161, or ret == -1 at line 170). -/
inductive DEvent
  | scanEnqueue (id : String)
  | workerPop (w : Nat)
  | workerSkipWorking (w : Nat)
  | workerPassWorking (w : Nat)
  | workerPrepareFail (w : Nat)
  | workerPrepareOk (w : Nat)
  | workerFinish (w : Nat)
  | workerAbort (w : Nat)
deriving DecidableEq

/-- One transition of the daemon; `none` when the event is not enabled
in the state. -/
def dstep (s : DaemonState) : DEvent → Option DaemonState
  | DEvent.scanEnqueue id =>
    if id ∈ s.pendingSet then some s
    else some { s with pendingSet := id :: s.pendingSet,
                       pendingQueue := s.pendingQueue ++ [id],
                       everEnqueued := id :: s.everEnqueued }
  | DEvent.workerPop w =>
    match s.workers.get? w, s.pendingQueue with
    | some WPhase.idle, id :: rest =>
      some { s with pendingQueue := rest,
                    pendingSet := s.pendingSet.erase id,
                    workers := s.workers.set w (WPhase.claimed id) }
    | _, _ => none
  | DEvent.workerSkipWorking w =>
    match s.workers.get? w with
    | some (WPhase.claimed id) =>
      if id ∈ s.workingSet
      then some { s with workers := s.workers.set w WPhase.idle }
      else none
    | _ => none
  | DEvent.workerPassWorking w =>
    match s.workers.get? w with
    | some (WPhase.claimed id) =>
      if id ∈ s.workingSet then none
      else some { s with workers := s.workers.set w (WPhase.checked id) }
    | _ => none
  | DEvent.workerPrepareFail w =>
    match s.workers.get? w with
    | some (WPhase.checked _) =>
      some { s with workers := s.workers.set w WPhase.idle }
    | _ => none
  | DEvent.workerPrepareOk w =>
    match s.workers.get? w with
    | some (WPhase.checked id) =>
      some { s with
        workingSet := if id ∈ s.workingSet then s.workingSet else id :: s.workingSet,
        workers := s.workers.set w (WPhase.running id) }
    | _ => none
  | DEvent.workerFinish w =>
    match s.workers.get? w with
    | some (WPhase.running id) =>
      some { s with workingSet := s.workingSet.erase id,
                    workers := s.workers.set w WPhase.idle }
    | _ => none
  | DEvent.workerAbort w =>
    match s.workers.get? w with
    | some (WPhase.running _) =>
      some { s with workers := s.workers.set w WPhase.dead }
    | _ => none

/-- Execution of a trace of events from a state. -/
def dexec (s : DaemonState) : List DEvent → Option DaemonState
  | [] => some s
  | e :: tr =>
    match dstep s e with
    | none => none
    | some s' => dexec s' tr

/-- The transition system restricted to schedules where the scanner
enqueues every instance id at most once: a scanEnqueue of an id already
in the ghost log is not enabled.  All other events are those of dstep. -/
def dstepOnce (s : DaemonState) (e : DEvent) : Option DaemonState :=
  match e with
  | DEvent.scanEnqueue id =>
    if id ∈ s.everEnqueued then none else dstep s e
  | _ => dstep s e

/-- Execution of a trace under the once-enqueued restriction. -/
def dexecOnce (s : DaemonState) : List DEvent → Option DaemonState
  | [] => some s
  | e :: tr =>
    match dstepOnce s e with
    | none => none
    | some s' => dexecOnce s' tr

/-- A worker phase holds an instance id when it is between popping the
id and leaving the working loop for it. -/
def holdsId (p : WPhase) (id : String) : Prop :=
  p = WPhase.claimed id ∨ p = WPhase.checked id ∨ p = WPhase.running id

/-- Inductive invariant of the once-enqueued daemon: the pending map
has no duplicate keys, everything in the pending structures, the
working map or a worker's hands was enqueued at some point, no worker
holds an id that is still in the pending map, and the pending map is
disjoint from the working map. -/
def DaemonInv (s : DaemonState) : Prop :=
  s.pendingSet.Nodup ∧
  (∀ id ∈ s.pendingSet, id ∈ s.everEnqueued) ∧
  (∀ id ∈ s.pendingQueue, id ∈ s.everEnqueued) ∧
  (∀ id ∈ s.workingSet, id ∈ s.everEnqueued) ∧
  (∀ p ∈ s.workers, ∀ id, holdsId p id → id ∈ s.everEnqueued) ∧
  (∀ p ∈ s.workers, ∀ id, holdsId p id → id ∉ s.pendingSet) ∧
  (∀ id ∈ s.workingSet, id ∉ s.pendingSet)

/-- Decidable probe used by the C1 counterexample: the daemon state (if
the trace executed) holds `id` in both pending_instance_map_ and
working_instance_map_. -/
def bothPendingAndWorking (o : Option DaemonState) (id : String) : Bool :=
  match o with
  | none => false
  | some s => s.pendingSet.contains id && s.workingSet.contains id

/-- The interleaving that breaks the pending/working disjointness: the
scanner enqueues i, a worker pops i (removing it from the pending map),
passes the working-map re-check and prepares successfully; before the
worker's emplace becomes visible together with a fresh scan, the
scanner enqueues i again — i is now in the pending map while the worker
holds it in the working map. -/
def c1Trace : List DEvent :=
  [DEvent.scanEnqueue "i", DEvent.workerPop 0, DEvent.workerPassWorking 0,
   DEvent.workerPrepareOk 0, DEvent.scanEnqueue "i"]

-- Part 7: concrete environments used to instantiate the theorems.

/-- A storage vault for a one-tablet instance: tablet 100's directory
holds the two segment objects of rowset R1. -/
def vaultS1 : StorageVault :=
  { tablet_path := fun _ => "data/100"
    segment_path := fun _ r i => r ++ "_" ++ (if i = 0 then "0" else "1")
    list_directory := fun p =>
      if p = "data/100" then some [⟨"R1_0", 10⟩, ⟨"R1_1", 20⟩] else none }

/-- Clean-scan environment: one visible rowset with two segments, both
present in the tablet listing. -/
def envS1 : CheckEnv :=
  { storage_vault_map := fun r => if r = "res1" then some vaultS1 else none
    key_exist := fun _ => 0
    rowset_kvs := [("k1", some ⟨100, "R1", "res1", 2⟩)]
    range_valid := true }

/-- A vault whose tablet 100 directory lost segment R1_1. -/
def vaultS3 : StorageVault :=
  { tablet_path := fun _ => "data/100"
    segment_path := fun _ r i => r ++ "_" ++ (if i = 0 then "0" else "1")
    list_directory := fun p =>
      if p = "data/100" then some [⟨"R1_0", 10⟩] else none }

/-- Concurrent-delete environment: the rowset's second segment is
missing from the listing, but the re-probe of its key reports
key-not-found (the rowset was deleted between list and re-probe). -/
def envS3 : CheckEnv :=
  { storage_vault_map := fun r => if r = "res1" then some vaultS3 else none
    key_exist := fun k => if k = "k1" then 1 else 0
    rowset_kvs := [("k1", some ⟨100, "R1", "res1", 2⟩)]
    range_valid := true }

/-- Inspector environment of testable property 7: lifecycle 7 days,
buffer 3 days, job record present with last_ctime_ms five days before
now. -/
def envInspectAlarm : InspectEnv :=
  { create_txn_ok := true
    get_err := KvErr.ok
    job_val := some ⟨some 0, 0, 42⟩
    init_ok := true
    lifecycle_ret := some 7
    instance_ctime := 0
    now := 5 * 86400000
    reserved_buffer_days := 3 }

/-- Inspector environment whose job_check key does not exist; the
checker initialises and the bucket-lifecycle fetch succeeds. -/
def envInspectNoKey : InspectEnv :=
  { create_txn_ok := true
    get_err := KvErr.keyNotFound
    job_val := none
    init_ok := true
    lifecycle_ret := some 7
    instance_ctime := 0
    now := 5 * 86400000
    reserved_buffer_days := 3 }

/-- Inverted-check environment whose KV scans always succeed and find
no rowset ids. -/
def envInv : InvEnv := { scan := fun _ => ([], true) }

-- Part 8: theorems.  Helper lemmas first, then one theorem per claim.

theorem collectResults_map_some {α : Type} (l : List α) :
    collectResults (l.map some) = l := by
  induction l with
  | nil => rfl
  | cons a l ih => simp [collectResults, ih]

theorem mem_collectResults {α : Type} :
    ∀ (l : List (Option α)) (j : Nat) (t : α),
      l.get? j = some (some t) →
      (∀ i, i < j → ∃ u : α, l.get? i = some (some u)) →
      t ∈ collectResults l := by
  intro l
  induction l with
  | nil => intro j t hj _; simp at hj
  | cons o rest ih =>
    intro j t hj hlt
    cases j with
    | zero =>
      simp only [List.get?] at hj
      cases hj
      simp [collectResults]
    | succ m =>
      obtain ⟨u, hu⟩ := hlt 0 (Nat.succ_pos m)
      simp only [List.get?] at hu
      cases hu
      simp only [collectResults]
      exact List.mem_cons_of_mem u (ih m t hj fun i hi => hlt (i + 1) (Nat.succ_lt_succ hi))

theorem runTask_stop_false {α : Type} (cancel : α → Bool) (callbacks : List α)
    (hnc : ∀ t ∈ callbacks, cancel t = false) (s : ExecState α) (i : Nat)
    (h : s.stop_token = false) :
    (runTask cancel callbacks s i).stop_token = false := by
  unfold runTask
  rw [h]
  simp only [Bool.false_eq_true, if_false]
  cases hc : callbacks.get? i with
  | none => exact h
  | some t => simp [h, hnc t (List.get?_mem hc)]

theorem runTask_res_length {α : Type} (cancel : α → Bool) (callbacks : List α)
    (s : ExecState α) (i : Nat) :
    (runTask cancel callbacks s i).res.length = s.res.length := by
  unfold runTask
  split
  · rfl
  · cases hc : callbacks.get? i <;> simp

theorem runTask_slotDone {α : Type} (cancel : α → Bool) (callbacks : List α)
    (s : ExecState α) (i j : Nat) (hj : SlotDone callbacks s j) :
    SlotDone callbacks (runTask cancel callbacks s i) j := by
  obtain ⟨t, hct, hrt⟩ := hj
  unfold runTask
  split
  · exact ⟨t, hct, hrt⟩
  · cases hc : callbacks.get? i with
    | none => exact ⟨t, hct, hrt⟩
    | some u =>
      by_cases hij : i = j
      · subst hij
        rw [hc] at hct
        cases hct
        refine ⟨t, hc, ?_⟩
        have hlt : i < s.res.length := by
          rcases List.get?_eq_some.mp hrt with ⟨hl, _⟩
          exact hl
        simpa using List.get?_set_eq_of_lt (some t) hlt
      · refine ⟨t, hct, ?_⟩
        rw [List.get?_set_ne _ _ hij]
        exact hrt

theorem runTask_slotDone_self {α : Type} (cancel : α → Bool) (callbacks : List α)
    (s : ExecState α) (i : Nat) (hst : s.stop_token = false)
    (hlen : s.res.length = callbacks.length) (hi : i < callbacks.length) :
    SlotDone callbacks (runTask cancel callbacks s i) i := by
  have hc : callbacks.get? i = some (callbacks.get ⟨i, hi⟩) := List.get?_eq_get hi
  unfold runTask
  rw [hst]
  simp only [Bool.false_eq_true, if_false]
  rw [hc]
  refine ⟨callbacks.get ⟨i, hi⟩, hc, ?_⟩
  have hlt : i < s.res.length := hlen ▸ hi
  simpa using List.get?_set_eq_of_lt _ hlt

theorem runSchedule_go {α : Type} (cancel : α → Bool) (callbacks : List α)
    (hnc : ∀ t ∈ callbacks, cancel t = false) :
    ∀ (order : List Nat) (s : ExecState α),
      s.stop_token = false → s.res.length = callbacks.length →
      (order.foldl (runTask cancel callbacks) s).stop_token = false ∧
      (order.foldl (runTask cancel callbacks) s).res.length = callbacks.length ∧
      (∀ j, SlotDone callbacks s j →
        SlotDone callbacks (order.foldl (runTask cancel callbacks) s) j) ∧
      (∀ i ∈ order, i < callbacks.length →
        SlotDone callbacks (order.foldl (runTask cancel callbacks) s) i) := by
  intro order
  induction order with
  | nil =>
    intro s hst hlen
    exact ⟨hst, hlen, fun _ h => h, fun i hi => absurd hi (List.not_mem_nil i)⟩
  | cons i rest ih =>
    intro s hst hlen
    simp only [List.foldl_cons]
    obtain ⟨h1, h2, h3, h4⟩ :=
      ih (runTask cancel callbacks s i)
        (runTask_stop_false cancel callbacks hnc s i hst)
        ((runTask_res_length cancel callbacks s i).trans hlen)
    refine ⟨h1, h2, ?_, ?_⟩
    · intro j hj
      exact h3 j (runTask_slotDone cancel callbacks s i j hj)
    · intro j hj hjlt
      rcases List.mem_cons.mp hj with hji | hjr
      · subst hji
        exact h3 j (runTask_slotDone_self cancel callbacks s j hst hlen hjlt)
      · exact h4 j hjr hjlt

/-- Claim C9: when M tasks are added and no task's result satisfies the
cancel predicate, when_all returns exactly the M results in submission
order with finished = true (for any execution order of the pool that
runs every task); and in every state the finished flag equals the test
that the number of collected results is the number of submitted tasks. -/
theorem sync_executor_when_all_complete {α : Type} (cancel : α → Bool)
    (callbacks : List α) (order : List Nat)
    (hcover : ∀ i, i < callbacks.length → i ∈ order)
    (hnc : ∀ t ∈ callbacks, cancel t = false) :
    when_all callbacks (runSchedule cancel callbacks order) = (callbacks, true) ∧
    ∀ s : ExecState α, (when_all callbacks s).2 =
      decide (callbacks.length = (when_all callbacks s).1.length) := by
  constructor
  · obtain ⟨-, h2, -, h4⟩ :=
      runSchedule_go cancel callbacks hnc order (initExec α callbacks.length)
        rfl (List.length_replicate callbacks.length none)
    have hres : (runSchedule cancel callbacks order).res = callbacks.map some := by
      unfold runSchedule
      apply List.ext_get?_iff.mpr
      intro n
      by_cases hn : n < callbacks.length
      · obtain ⟨t, hct, hrt⟩ := h4 n (hcover n hn) hn
        rw [hrt, List.get?_map, hct]
        rfl
      · have h1 : (List.foldl (runTask cancel callbacks) (initExec α callbacks.length)
            order).res.get? n = none :=
          List.get?_eq_none.mpr (by rw [h2]; exact Nat.le_of_not_lt hn)
        have hm : (List.map some callbacks).get? n = none :=
          List.get?_eq_none.mpr (by simpa using Nat.le_of_not_lt hn)
        rw [h1, hm]
    unfold when_all
    rw [hres, collectResults_map_some]
    simp
  · intro s
    rfl

/-- Claim C10 counterexample: with tasks [0, 1], a cancel predicate
satisfied by 1 and the pool running task 1 first, the triggering task's
result is stored in its slot but when_all's collected results are empty
(task 0 was skipped), so the stored result is not included. -/
theorem sync_executor_cancel_inclusion_counterexample :
    (runSchedule (fun t => t == 1) [0, 1] [1, 0]).res.get? 1 = some (some 1) ∧
    (when_all ([0, 1] : List Nat) (runSchedule (fun t => t == 1) [0, 1] [1, 0])).1 = [] :=
  ⟨rfl, rfl⟩

/-- Claim C10, amended: the stop token is only ever set by a task that
ran its callback to completion, and that task's result is stored in its
slot; a task that observes a set stop token leaves the state untouched
(skips and contributes no result); a stored result is included in
when_all's collected results provided every earlier-submitted task also
stored a result. -/
theorem sync_executor_cancel_behavior {α : Type} (cancel : α → Bool)
    (callbacks : List α) :
    (∀ (s : ExecState α) (i : Nat), s.res.length = callbacks.length →
      s.stop_token = false →
      (runTask cancel callbacks s i).stop_token = true →
        ∃ t, callbacks.get? i = some t ∧ cancel t = true ∧
          (runTask cancel callbacks s i).res.get? i = some (some t)) ∧
    (∀ (s : ExecState α) (i : Nat), s.stop_token = true →
      runTask cancel callbacks s i = s) ∧
    (∀ (s : ExecState α) (j : Nat) (t : α), s.res.get? j = some (some t) →
      (∀ i, i < j → ∃ u : α, s.res.get? i = some (some u)) →
      t ∈ (when_all callbacks s).1) := by
  refine ⟨?_, ?_, ?_⟩
  · intro s i hlen hst htok
    cases hc : callbacks.get? i with
    | none =>
      exfalso
      have hid : runTask cancel callbacks s i = s := by
        unfold runTask
        rw [hst, hc]
        simp
      rw [hid, hst] at htok
      exact Bool.false_ne_true htok
    | some t =>
      have hres : runTask cancel callbacks s i =
          ⟨s.stop_token || cancel t, s.res.set i (some t)⟩ := by
        unfold runTask
        rw [hst, hc]
        simp
      rw [hres] at htok
      simp only [hst, Bool.false_or] at htok
      refine ⟨t, rfl, htok, ?_⟩
      rw [hres]
      have hlt : i < s.res.length := by
        rw [hlen]
        rcases List.get?_eq_some.mp hc with ⟨h, _⟩
        exact h
      simpa using List.get?_set_eq_of_lt (some t) hlt
  · intro s i hst
    unfold runTask
    rw [hst]
    simp
  · intro s j t hj hlt
    exact mem_collectResults s.res j t hj hlt

/-- Witness for the amended C10 theorem at a concrete state: slot 1
holds result 7, slot 0 holds a result too, so 7 is included in the
collected results. -/
theorem sync_executor_cancel_behavior_witness :
    (⟨true, [some 5, some 7]⟩ : ExecState Nat).res.get? 1 = some (some 7) ∧
    7 ∈ (when_all ([0, 0] : List Nat) ⟨true, [some 5, some 7]⟩).1 :=
  ⟨rfl,
    (sync_executor_cancel_behavior (fun _ => false) [0, 0]).2.2
      ⟨true, [some 5, some 7]⟩ 1 7 rfl
      (fun i hi => ⟨5, by interval_cases i; rfl⟩)⟩

/-- Witness for C9: two tasks run out of submission order with a never-
satisfied cancel predicate still yield both results in submission order
with finished = true. -/
theorem sync_executor_when_all_complete_witness :
    (∀ i, i < ([3, 4] : List Nat).length → i ∈ [1, 0]) ∧
    when_all [3, 4] (runSchedule (fun _ => false) [3, 4] [1, 0]) = ([3, 4], true) :=
  ⟨by decide,
    (sync_executor_when_all_complete (fun _ => false) [3, 4] [1, 0]
      (by decide) (by intro t _; rfl)).1⟩

/-- Claim C4: after the checks, finish_instance_recycle_job runs if and
only if the combined result is not -1 and the checker was not stopped,
and then its success argument is (ret == 0); on -1 or stop the job
record is untouched (no finish call). -/
theorem worker_finish_iff (checkRet invRet : Int) (enableInverted stoppedFlag : Bool) :
    (workerAfterCheck (combinedRet checkRet enableInverted invRet) stoppedFlag).finishCalled =
      (decide (combinedRet checkRet enableInverted invRet ≠ -1) && !stoppedFlag) ∧
    (workerAfterCheck (combinedRet checkRet enableInverted invRet) stoppedFlag).finishSuccess =
      (if (decide (combinedRet checkRet enableInverted invRet ≠ -1) && !stoppedFlag) = true
       then some (decide (combinedRet checkRet enableInverted invRet = 0))
       else none) := by
  generalize combinedRet checkRet enableInverted invRet = r
  unfold workerAfterCheck
  by_cases h : r = -1
  · simp [h]
  · by_cases hs : stoppedFlag <;> simp [h, hs]

/-- Claim C5 counterexample: a worker whose (combined) check result is
-1 and whose checker was not stopped does not erase its instance from
working_instance_map_ — the thread returns first, so the claim that the
entry is always removed is false. -/
theorem worker_erase_counterexample :
    combinedRet (-1) false 0 = -1 ∧
    (workerAfterCheck (combinedRet (-1) false 0) false).erasedFromWorking = false :=
  ⟨rfl, rfl⟩

/-- Claim C5, amended: the worker removes the instance from
working_instance_map_ exactly when the combined check result is not -1
(stopped or not); on -1 the worker thread returns with the entry still
in the map. -/
theorem worker_erase_iff_not_neg_one (ret : Int) (stoppedFlag : Bool) :
    (workerAfterCheck ret stoppedFlag).erasedFromWorking = decide (ret ≠ -1) := by
  unfold workerAfterCheck
  by_cases h : ret = -1 <;> by_cases hs : stoppedFlag <;> simp [h, hs]

/-- Claim C6: whenever do_inspect reaches the expiration comparison,
expiration_ms is (L - B) * 86400000 when the bucket lifecycle L exceeds
reserved_buffer_days B and L * 86400000 otherwise, the alarm fires iff
now - last_ctime_ms >= expiration_ms, and last_ctime_ms comes from the
job record when the key exists, parses and has the field, else from
instance.ctime. -/
theorem do_inspect_alarm_condition (env : InspectEnv) (L : Int)
    (h1 : env.create_txn_ok = true)
    (h2 : env.get_err ≠ KvErr.transport)
    (h3 : env.init_ok = true)
    (h4 : env.lifecycle_ret = some L)
    (h5 : L ≠ int64Max) :
    (do_inspect env).completed = true ∧
    (do_inspect env).expiration_ms =
      (if L > env.reserved_buffer_days
       then (L - env.reserved_buffer_days) * 86400000
       else L * 86400000) ∧
    ((do_inspect env).alarmed = true ↔
      env.now - (do_inspect env).last_ctime_ms ≥ (do_inspect env).expiration_ms) ∧
    (do_inspect env).last_ctime_ms =
      (match env.get_err, env.job_val with
       | KvErr.ok, some job =>
         (match job.last_ctime_ms with
          | some lc => lc
          | none => env.instance_ctime)
       | _, _ => env.instance_ctime) := by
  cases hg : env.get_err with
  | transport => exact absurd hg h2
  | keyNotFound =>
    simp [do_inspect, h1, h3, h4, hg, h5]
  | ok =>
    cases hj : env.job_val with
    | none => simp [do_inspect, h1, h3, h4, hg, hj, h5]
    | some job =>
      cases hl : job.last_ctime_ms with
      | none => simp [do_inspect, h1, h3, h4, hg, hj, hl, h5]
      | some lc => simp [do_inspect, h1, h3, h4, hg, hj, hl, h5]

/-- Witness for C6 at the spec's concrete scenario: lifecycle 7 days,
buffer 3 days, last_ctime_ms five days before now — the alarm fires. -/
theorem do_inspect_alarm_condition_witness :
    (envInspectAlarm.create_txn_ok = true ∧
     envInspectAlarm.lifecycle_ret = some 7 ∧ (7 : Int) ≠ int64Max) ∧
    (do_inspect envInspectAlarm).alarmed = true :=
  ⟨⟨rfl, rfl, by decide⟩,
    ((do_inspect_alarm_condition envInspectAlarm 7 rfl (by decide) rfl rfl
        (by decide)).2.2.1).mpr (by decide)⟩

/-- Claim C7 counterexample: an instance that the inspector examines
(init succeeds, bucket-lifecycle fetch succeeds) but whose job_check
key does not exist completes the inspection without exporting
last_success_time_ms, so the export does not happen for every examined
instance. -/
theorem do_inspect_export_counterexample :
    envInspectNoKey.init_ok = true ∧ envInspectNoKey.lifecycle_ret = some 7 ∧
    (do_inspect envInspectNoKey).completed = true ∧
    (do_inspect envInspectNoKey).exported = none :=
  ⟨rfl, rfl, by decide, by decide⟩

/-- Claim C7, amended: for an examined instance, do_inspect exports
last_success_time_ms if and only if the job_check key exists, its value
parses and carries last_ctime_ms (and then it exports that record's
last_success_time_ms). -/
theorem do_inspect_export_characterization (env : InspectEnv) (L : Int)
    (h1 : env.create_txn_ok = true)
    (h2 : env.get_err ≠ KvErr.transport)
    (h3 : env.init_ok = true)
    (h4 : env.lifecycle_ret = some L)
    (h5 : L ≠ int64Max) :
    (do_inspect env).exported =
      (match env.get_err, env.job_val with
       | KvErr.ok, some job =>
         (match job.last_ctime_ms with
          | some _ => some job.last_success_time_ms
          | none => none)
       | _, _ => none) := by
  cases hg : env.get_err with
  | transport => exact absurd hg h2
  | keyNotFound =>
    simp [do_inspect, h1, h3, h4, hg, h5]
  | ok =>
    cases hj : env.job_val with
    | none => simp [do_inspect, h1, h3, h4, hg, hj, h5]
    | some job =>
      cases hl : job.last_ctime_ms with
      | none => simp [do_inspect, h1, h3, h4, hg, hj, hl, h5]
      | some lc => simp [do_inspect, h1, h3, h4, hg, hj, hl, h5]

/-- Witness for the amended C7 theorem: with the job record present and
carrying last_ctime_ms, the record's last_success_time_ms (42) is
exported. -/
theorem do_inspect_export_characterization_witness :
    (envInspectAlarm.get_err = KvErr.ok ∧ envInspectAlarm.job_val.isSome = true) ∧
    (do_inspect envInspectAlarm).exported = some 42 :=
  ⟨⟨rfl, rfl⟩,
    (do_inspect_export_characterization envInspectAlarm 7 rfl (by decide) rfl rfl
        (by decide)).trans rfl⟩

/-- Claim C8: parsing an object key in the inverted check succeeds
exactly when splitting on '/' yields at least 3 components, component
index 1 parses (atol) to a tablet_id > 0, and the last component
contains an underscore; then rowset_id is the prefix of the last
component up to its first underscore.  A key that fails to parse makes
the listing loop count one check failure. -/
theorem parse_segment_key_characterization (k : String) :
    (parse_segment_key k =
      (if 3 ≤ (splitOnChar '/' k).length ∧ 0 < atol ((splitOnChar '/' k).getD 1 "") ∧
          '_' ∈ ((splitOnChar '/' k).getLastD "").data
       then some (atol ((splitOnChar '/' k).getD 1 ""),
                  String.mk (((splitOnChar '/' k).getLastD "").data.takeWhile fun c => c ≠ '_'))
       else none)) ∧
    ∀ (env : InvEnv) (cache : TabletRowsets) (n f : Nat),
      parse_segment_key k = none →
      invertedStep env (cache, n, f) k = (cache, n + 1, f + 1) := by
  constructor
  · simp only [parse_segment_key, rowsetIdOf]
    by_cases hl : (splitOnChar '/' k).length < 3
    · rw [if_pos hl, if_neg]
      rintro ⟨h3, -⟩
      omega
    · rw [if_neg hl]
      by_cases ht : atol ((splitOnChar '/' k).getD 1 "") ≤ 0
      · rw [if_pos ht, if_neg]
        rintro ⟨-, h0, -⟩
        omega
      · rw [if_neg ht]
        by_cases hu : '_' ∈ ((splitOnChar '/' k).getLastD "").data
        · rw [if_pos hu, if_pos ⟨Nat.le_of_not_lt hl, not_le.mp ht, hu⟩]
        · rw [if_neg hu, if_neg]
          rintro ⟨-, -, h⟩
          exact hu h
  · intro env cache n f hp
    unfold invertedStep check_segment_file
    rw [hp]
    simp

/-- Witness for C8: the key "x" (one component) fails to parse and the
listing loop of the inverted check counts it as a check failure. -/
theorem parse_segment_key_characterization_witness :
    parse_segment_key "x" = none ∧
    invertedStep envInv (⟨0, []⟩, 0, 0) "x" = (⟨0, []⟩, 1, 1) :=
  ⟨by decide,
    (parse_segment_key_characterization "x").2 envInv ⟨0, []⟩ 0 0 (by decide)⟩

theorem checkSegments_clean (env : CheckEnv) (vault : StorageVault)
    (files : List String) (rs : RowsetMetaCloudPB) (key : String)
    (h : ∀ i, i < rs.num_segments →
      vault.segment_path rs.tablet_id rs.rowset_id_v2 i ∈ files ∨
        env.key_exist key = 1) :
    ∀ st, checkSegments env vault files rs key st = st := by
  unfold checkSegments
  suffices H : ∀ n, (∀ i, i < n →
      vault.segment_path rs.tablet_id rs.rowset_id_v2 i ∈ files ∨
        env.key_exist key = 1) →
      ∀ st, (List.range n).foldl (checkOneSegment env vault files rs key) st = st by
    exact H rs.num_segments h
  intro n
  induction n with
  | zero => intro _ st; rfl
  | succ m ih =>
    intro hm st
    rw [List.range_succ, List.foldl_append, ih (fun i hi => hm i (Nat.lt_succ_of_lt hi))]
    simp only [List.foldl_cons, List.foldl_nil]
    rcases hm m (Nat.lt_succ_self m) with hp | hk
    · simp [checkOneSegment, hp]
    · simp [checkOneSegment, hk, ite_self]

theorem check_rowset_objects_clean (env : CheckEnv)
    (hcons : ResourceConsistent env)
    (rs : RowsetMetaCloudPB) (key : String)
    (hmem : (key, some rs) ∈ env.rowset_kvs)
    (hrec : RecordClean env (key, some rs))
    (cache : TabletFiles) (hcache : CacheOK env cache) (st : CheckStats) :
    ∃ cache' st', check_rowset_objects env rs key cache st = some (cache', st') ∧
      st'.num_check_failed = st.num_check_failed ∧
      st'.num_scanned = st.num_scanned ∧
      st'.warned_paths = st.warned_paths ∧
      CacheOK env cache' := by
  obtain ⟨rs', hrs', ht0, v, hv, fl, hfl, hseg⟩ := hrec
  have hrseq : rs = rs' := by injection hrs'
  subst hrseq
  by_cases h0 : rs.num_segments = 0
  · refine ⟨cache, st, ?_, rfl, rfl, rfl, hcache⟩
    unfold check_rowset_objects
    rw [if_pos h0]
  · by_cases hct : cache.tablet_id ≠ rs.tablet_id
    · have hstep : check_rowset_objects env rs key cache st =
          some (⟨rs.tablet_id, fl.map FileMeta.path, some v⟩,
            checkSegments env v (fl.map FileMeta.path) rs key
              { st with
                num_scanned_with_segment := st.num_scanned_with_segment + 1,
                instance_volume := st.instance_volume + listVolume fl }) := by
        simp [check_rowset_objects, h0, hct, hv, hfl]
      rw [checkSegments_clean env v (fl.map FileMeta.path) rs key hseg] at hstep
      refine ⟨_, _, hstep, rfl, rfl, rfl, ?_⟩
      refine Or.inr ⟨rs.resource_id, v, fl, hv, hfl, rfl, rfl, ht0, ?_⟩
      intro kp hkp rs2 hrs2 htab
      exact hcons kp hkp (key, some rs) hmem rs2 rs hrs2 rfl htab
    · have hct' : cache.tablet_id = rs.tablet_id := not_ne_iff.mp hct
      rcases hcache with ⟨hz, -, -⟩ | ⟨res, v₀, fl₀, hv₀, hfl₀, hfiles, hvault, -, hconsi⟩
      · exact absurd (by rw [← hct', hz]) ht0
      · have hres_eq : rs.resource_id = res :=
          hconsi (key, some rs) hmem rs rfl hct'.symm
        have hveq : some v = some v₀ := by rw [← hv, hres_eq, hv₀]
        have hvv : v = v₀ := by injection hveq
        subst hvv
        have hfl₀' : v.list_directory (v.tablet_path rs.tablet_id) = some fl₀ := by
          rw [← hct']
          exact hfl₀
        have hfleq : fl = fl₀ := by
          have h2 : some fl = some fl₀ := by rw [← hfl, hfl₀']
          injection h2
        subst hfleq
        have hstep : check_rowset_objects env rs key cache st =
            some (cache, checkSegments env v cache.files rs key
              { st with num_scanned_with_segment := st.num_scanned_with_segment + 1 }) := by
          simp [check_rowset_objects, h0, hct, hvault]
        have hsegc : ∀ i, i < rs.num_segments →
            v.segment_path rs.tablet_id rs.rowset_id_v2 i ∈ cache.files ∨
              env.key_exist key = 1 := by
          rw [hfiles]
          exact hseg
        rw [checkSegments_clean env v cache.files rs key hsegc] at hstep
        exact ⟨cache, _, hstep, rfl, rfl, rfl,
          Or.inr ⟨res, v, fl, hv₀, hfl₀, hfiles, hvault, by rw [hct']; exact ht0, hconsi⟩⟩

theorem do_check_loop_clean (env : CheckEnv) (hcons : ResourceConsistent env) :
    ∀ (l : List (String × Option RowsetMetaCloudPB)),
      (∀ kp ∈ l, kp ∈ env.rowset_kvs ∧ RecordClean env kp) →
      ∀ cache st, CacheOK env cache →
        ∃ cache' st', do_check_loop env l cache st = some (cache', st') ∧
          st'.num_check_failed = st.num_check_failed ∧
          st'.num_scanned = st.num_scanned + l.length ∧
          st'.warned_paths = st.warned_paths ∧
          CacheOK env cache' := by
  intro l
  induction l with
  | nil =>
    intro _ cache st hcache
    exact ⟨cache, st, rfl, rfl, by simp, rfl, hcache⟩
  | cons kp rest ih =>
    intro hl cache st hcache
    obtain ⟨hmem, hrec⟩ := hl kp (List.mem_cons_self kp rest)
    obtain ⟨k2, pv2⟩ := kp
    rcases hrec with ⟨rs, hpv, hP⟩
    simp only at hpv
    subst hpv
    obtain ⟨cache', st', hstep, hf, hs, hw, hcache'⟩ :=
      check_rowset_objects_clean env hcons rs k2 hmem ⟨rs, rfl, hP⟩ cache hcache
        { st with num_scanned := st.num_scanned + 1 }
    obtain ⟨cache'', st'', hloop, hf', hs', hw', hcache''⟩ :=
      ih (fun x hx => hl x (List.mem_cons_of_mem _ hx)) cache' st' hcache'
    refine ⟨cache'', st'', ?_, ?_, ?_, ?_, hcache''⟩
    · simp only [do_check_loop]
      rw [hstep]
      exact hloop
    · rw [hf', hf]
    · rw [hs', hs]
      simp only [List.length_cons]
      omega
    · rw [hw', hw]

/-- Claim C2: over a KV store holding N well-formed visible rowset
records (each parses, has a non-zero tablet id, and rowsets of one
tablet share one resource id) whose resource ids are all in the vault
registry, whose tablet listings all succeed and contain every segment
path, and with the range iterator valid after exhaustion, do_check
returns 0 with num_check_failed = 0 and num_scanned = N. -/
theorem do_check_clean_scan (env : CheckEnv)
    (hvalid : env.range_valid = true)
    (hcons : ResourceConsistent env)
    (hrec : ∀ kp ∈ env.rowset_kvs, RecordComplete env kp) :
    ∃ st, do_check env = some (0, st) ∧ st.num_check_failed = 0 ∧
      st.num_scanned = env.rowset_kvs.length := by
  have hrec' : ∀ kp ∈ env.rowset_kvs, kp ∈ env.rowset_kvs ∧ RecordClean env kp := by
    intro kp hkp
    obtain ⟨rs, h1, h2, v, h3, fl, h4, h5⟩ := hrec kp hkp
    exact ⟨hkp, rs, h1, h2, v, h3, fl, h4, fun i hi => Or.inl (h5 i hi)⟩
  obtain ⟨cache', st', hloop, hf, hs, -, -⟩ :=
    do_check_loop_clean env hcons env.rowset_kvs hrec' TabletFiles.empty initStats
      (Or.inl ⟨rfl, rfl, rfl⟩)
  have hf0 : st'.num_check_failed = 0 := hf
  refine ⟨st', ?_, hf0, by simpa [initStats] using hs⟩
  unfold do_check
  rw [hloop, hvalid]
  simp [hf0]

/-- Claim C3: a missing segment whose rowset key re-probe reports
key-not-found is treated as OK — the per-segment check leaves the
counters and the warning log untouched — and a scan in which every
segment is either present or belongs to such a concurrently deleted
rowset returns 0 with num_check_failed = 0 and no `object not exist`
warning logged. -/
theorem do_check_concurrent_delete_ok (env : CheckEnv)
    (hvalid : env.range_valid = true)
    (hcons : ResourceConsistent env)
    (hrec : ∀ kp ∈ env.rowset_kvs, RecordClean env kp) :
    (∀ (vault : StorageVault) (files : List String) (rs : RowsetMetaCloudPB)
        (key : String) (st : CheckStats) (i : Nat),
        env.key_exist key = 1 →
        checkOneSegment env vault files rs key st i = st) ∧
    ∃ st, do_check env = some (0, st) ∧ st.num_check_failed = 0 ∧
      st.warned_paths = [] := by
  constructor
  · intro vault files rs key st i hke
    simp [checkOneSegment, hke, ite_self]
  · obtain ⟨cache', st', hloop, hf, -, hw, -⟩ :=
      do_check_loop_clean env hcons env.rowset_kvs
        (fun kp hkp => ⟨hkp, hrec kp hkp⟩) TabletFiles.empty initStats
        (Or.inl ⟨rfl, rfl, rfl⟩)
    have hf0 : st'.num_check_failed = 0 := hf
    refine ⟨st', ?_, hf0, hw⟩
    unfold do_check
    rw [hloop, hvalid]
    simp [hf0]

/-- Witness for C2 at the spec's S1 scenario: one rowset with two
segments, both objects present — do_check returns 0, no failures, one
record scanned. -/
theorem do_check_clean_scan_witness :
    envS1.range_valid = true ∧
    ∃ st, do_check envS1 = some (0, st) ∧ st.num_check_failed = 0 ∧
      st.num_scanned = envS1.rowset_kvs.length :=
  ⟨rfl,
    do_check_clean_scan envS1 rfl
      (by
        rintro kp1 h1 kp2 h2 rs1 rs2 e1 e2 -
        simp only [envS1, List.mem_singleton] at h1 h2
        subst h1
        subst h2
        simp only at e1 e2
        injection e1 with e1'
        injection e2 with e2'
        rw [← e1', ← e2'])
      (by
        intro kp hkp
        simp only [envS1, List.mem_singleton] at hkp
        subst hkp
        refine ⟨⟨100, "R1", "res1", 2⟩, rfl, by decide, vaultS1, rfl,
          [⟨"R1_0", 10⟩, ⟨"R1_1", 20⟩], rfl, ?_⟩
        intro i hi
        interval_cases i <;> decide)⟩

/-- Witness for C3 at the spec's S3 scenario: segment R1_1 is missing
from the listing but the rowset key re-probe reports key-not-found —
do_check returns 0 with no failure and no warning. -/
theorem do_check_concurrent_delete_ok_witness :
    envS3.range_valid = true ∧ envS3.key_exist "k1" = 1 ∧
    ∃ st, do_check envS3 = some (0, st) ∧ st.num_check_failed = 0 ∧
      st.warned_paths = [] :=
  ⟨rfl, rfl,
    (do_check_concurrent_delete_ok envS3 rfl
      (by
        rintro kp1 h1 kp2 h2 rs1 rs2 e1 e2 -
        simp only [envS3, List.mem_singleton] at h1 h2
        subst h1
        subst h2
        simp only at e1 e2
        injection e1 with e1'
        injection e2 with e2'
        rw [← e1', ← e2'])
      (by
        intro kp hkp
        simp only [envS3, List.mem_singleton] at hkp
        subst hkp
        refine ⟨⟨100, "R1", "res1", 2⟩, rfl, by decide, vaultS3, rfl,
          [⟨"R1_0", 10⟩], rfl, ?_⟩
        intro i hi
        interval_cases i
        · exact Or.inl (by decide)
        · exact Or.inr (by decide))).2⟩

theorem holdsId_idle_false {id : String} (h : holdsId WPhase.idle id) : False := by
  rcases h with h | h | h <;> cases h

theorem holdsId_dead_false {id : String} (h : holdsId WPhase.dead id) : False := by
  rcases h with h | h | h <;> cases h

theorem holdsId_claimed_eq {a id : String} (h : holdsId (WPhase.claimed a) id) :
    id = a := by
  rcases h with h | h | h <;> first
    | (injection h with h'; exact h'.symm)
    | cases h

theorem holdsId_checked_eq {a id : String} (h : holdsId (WPhase.checked a) id) :
    id = a := by
  rcases h with h | h | h <;> first
    | (injection h with h'; exact h'.symm)
    | cases h

theorem holdsId_running_eq {a id : String} (h : holdsId (WPhase.running a) id) :
    id = a := by
  rcases h with h | h | h <;> first
    | (injection h with h'; exact h'.symm)
    | cases h

theorem dstepOnce_inv (s : DaemonState) (e : DEvent) (s' : DaemonState)
    (h : DaemonInv s) (hst : dstepOnce s e = some s') : DaemonInv s' := by
  obtain ⟨hnd, hps, hpq, hws, hhold, hholdnp, hwsnp⟩ := h
  cases e with
  | scanEnqueue id =>
    simp only [dstepOnce] at hst
    by_cases hev : id ∈ s.everEnqueued
    · rw [if_pos hev] at hst
      cases hst
    · rw [if_neg hev] at hst
      simp only [dstep] at hst
      by_cases hpend : id ∈ s.pendingSet
      · exact absurd (hps id hpend) hev
      · rw [if_neg hpend] at hst
        injection hst with hs'
        subst hs'
        refine ⟨List.nodup_cons.mpr ⟨hpend, hnd⟩, ?_, ?_, ?_, ?_, ?_, ?_⟩
        · intro x hx
          rcases List.mem_cons.mp hx with hx | hx
          · subst hx
            exact List.mem_cons_self x _
          · exact List.mem_cons_of_mem _ (hps x hx)
        · intro x hx
          rcases List.mem_append.mp hx with hx | hx
          · exact List.mem_cons_of_mem _ (hpq x hx)
          · rw [List.mem_singleton.mp hx]
            exact List.mem_cons_self id _
        · intro x hx
          exact List.mem_cons_of_mem _ (hws x hx)
        · intro p hp id2 hh
          exact List.mem_cons_of_mem _ (hhold p hp id2 hh)
        · intro p hp id2 hh hmem
          rcases List.mem_cons.mp hmem with hx | hx
          · subst hx
            exact hev (hhold p hp id2 hh)
          · exact hholdnp p hp id2 hh hx
        · intro x hx hmem
          rcases List.mem_cons.mp hmem with hy | hy
          · subst hy
            exact hev (hws x hx)
          · exact hwsnp x hx hy
  | workerPop w =>
    simp only [dstepOnce, dstep] at hst
    cases hw : s.workers.get? w with
    | none =>
      rw [hw] at hst
      cases hst
    | some ph =>
      rw [hw] at hst
      cases ph with
      | claimed a => cases hst
      | checked a => cases hst
      | running a => cases hst
      | dead => cases hst
      | idle =>
        cases hq : s.pendingQueue with
        | nil =>
          rw [hq] at hst
          cases hst
        | cons id rest =>
          rw [hq] at hst
          injection hst with hs'
          subst hs'
          have hidev : id ∈ s.everEnqueued :=
            hpq id (by rw [hq]; exact List.mem_cons_self id rest)
          refine ⟨List.Nodup.erase id hnd, ?_, ?_, hws, ?_, ?_, ?_⟩
          · intro x hx
            exact hps x (List.erase_subset id s.pendingSet hx)
          · intro x hx
            exact hpq x (by rw [hq]; exact List.mem_cons_of_mem id hx)
          · intro p hp id2 hh
            rcases List.mem_or_eq_of_mem_set hp with hp' | hp'
            · exact hhold p hp' id2 hh
            · subst hp'
              rw [holdsId_claimed_eq hh]
              exact hidev
          · intro p hp id2 hh hmem
            rcases List.mem_or_eq_of_mem_set hp with hp' | hp'
            · exact hholdnp p hp' id2 hh (List.erase_subset id s.pendingSet hmem)
            · subst hp'
              rw [holdsId_claimed_eq hh] at hmem
              exact List.Nodup.not_mem_erase hnd hmem
          · intro x hx hmem
            exact hwsnp x hx (List.erase_subset id s.pendingSet hmem)
  | workerSkipWorking w =>
    simp only [dstepOnce, dstep] at hst
    cases hw : s.workers.get? w with
    | none =>
      rw [hw] at hst
      cases hst
    | some ph =>
      rw [hw] at hst
      cases ph with
      | idle => cases hst
      | checked a => cases hst
      | running a => cases hst
      | dead => cases hst
      | claimed a =>
        have hst2 : (if a ∈ s.workingSet then
            some { s with workers := s.workers.set w WPhase.idle } else none) =
              some s' := hst
        by_cases hmem : a ∈ s.workingSet
        · rw [if_pos hmem] at hst2
          injection hst2 with hs'
          subst hs'
          refine ⟨hnd, hps, hpq, hws, ?_, ?_, hwsnp⟩
          · intro p hp id2 hh
            rcases List.mem_or_eq_of_mem_set hp with hp' | hp'
            · exact hhold p hp' id2 hh
            · subst hp'
              exact absurd hh holdsId_idle_false
          · intro p hp id2 hh
            rcases List.mem_or_eq_of_mem_set hp with hp' | hp'
            · exact hholdnp p hp' id2 hh
            · subst hp'
              exact absurd hh holdsId_idle_false
        · rw [if_neg hmem] at hst2
          cases hst2
  | workerPassWorking w =>
    simp only [dstepOnce, dstep] at hst
    cases hw : s.workers.get? w with
    | none =>
      rw [hw] at hst
      cases hst
    | some ph =>
      rw [hw] at hst
      cases ph with
      | idle => cases hst
      | checked a => cases hst
      | running a => cases hst
      | dead => cases hst
      | claimed a =>
        have hst2 : (if a ∈ s.workingSet then none
            else some { s with workers := s.workers.set w (WPhase.checked a) }) =
              some s' := hst
        by_cases hmem : a ∈ s.workingSet
        · rw [if_pos hmem] at hst2
          cases hst2
        · rw [if_neg hmem] at hst2
          injection hst2 with hs'
          subst hs'
          have hcl : WPhase.claimed a ∈ s.workers := List.get?_mem hw
          refine ⟨hnd, hps, hpq, hws, ?_, ?_, hwsnp⟩
          · intro p hp id2 hh
            rcases List.mem_or_eq_of_mem_set hp with hp' | hp'
            · exact hhold p hp' id2 hh
            · subst hp'
              rw [holdsId_checked_eq hh]
              exact hhold _ hcl a (Or.inl rfl)
          · intro p hp id2 hh
            rcases List.mem_or_eq_of_mem_set hp with hp' | hp'
            · exact hholdnp p hp' id2 hh
            · subst hp'
              rw [holdsId_checked_eq hh]
              exact hholdnp _ hcl a (Or.inl rfl)
  | workerPrepareFail w =>
    simp only [dstepOnce, dstep] at hst
    cases hw : s.workers.get? w with
    | none =>
      rw [hw] at hst
      cases hst
    | some ph =>
      rw [hw] at hst
      cases ph with
      | idle => cases hst
      | claimed a => cases hst
      | running a => cases hst
      | dead => cases hst
      | checked a =>
        injection hst with hs'
        subst hs'
        refine ⟨hnd, hps, hpq, hws, ?_, ?_, hwsnp⟩
        · intro p hp id2 hh
          rcases List.mem_or_eq_of_mem_set hp with hp' | hp'
          · exact hhold p hp' id2 hh
          · subst hp'
            exact absurd hh holdsId_idle_false
        · intro p hp id2 hh
          rcases List.mem_or_eq_of_mem_set hp with hp' | hp'
          · exact hholdnp p hp' id2 hh
          · subst hp'
            exact absurd hh holdsId_idle_false
  | workerPrepareOk w =>
    simp only [dstepOnce, dstep] at hst
    cases hw : s.workers.get? w with
    | none =>
      rw [hw] at hst
      cases hst
    | some ph =>
      rw [hw] at hst
      cases ph with
      | idle => cases hst
      | claimed a => cases hst
      | running a => cases hst
      | dead => cases hst
      | checked a =>
        injection hst with hs'
        subst hs'
        have hck : WPhase.checked a ∈ s.workers := List.get?_mem hw
        have hidev : a ∈ s.everEnqueued := hhold _ hck a (Or.inr (Or.inl rfl))
        have hidnp : a ∉ s.pendingSet := hholdnp _ hck a (Or.inr (Or.inl rfl))
        refine ⟨hnd, hps, hpq, ?_, ?_, ?_, ?_⟩
        · intro x hx
          by_cases hm : a ∈ s.workingSet
          · rw [if_pos hm] at hx
            exact hws x hx
          · rw [if_neg hm] at hx
            rcases List.mem_cons.mp hx with hy | hy
            · subst hy
              exact hidev
            · exact hws x hy
        · intro p hp id2 hh
          rcases List.mem_or_eq_of_mem_set hp with hp' | hp'
          · exact hhold p hp' id2 hh
          · subst hp'
            rw [holdsId_running_eq hh]
            exact hidev
        · intro p hp id2 hh
          rcases List.mem_or_eq_of_mem_set hp with hp' | hp'
          · exact hholdnp p hp' id2 hh
          · subst hp'
            rw [holdsId_running_eq hh]
            exact hidnp
        · intro x hx
          by_cases hm : a ∈ s.workingSet
          · rw [if_pos hm] at hx
            exact hwsnp x hx
          · rw [if_neg hm] at hx
            rcases List.mem_cons.mp hx with hy | hy
            · subst hy
              exact hidnp
            · exact hwsnp x hy
  | workerFinish w =>
    simp only [dstepOnce, dstep] at hst
    cases hw : s.workers.get? w with
    | none =>
      rw [hw] at hst
      cases hst
    | some ph =>
      rw [hw] at hst
      cases ph with
      | idle => cases hst
      | claimed a => cases hst
      | checked a => cases hst
      | dead => cases hst
      | running a =>
        injection hst with hs'
        subst hs'
        refine ⟨hnd, hps, hpq, ?_, ?_, ?_, ?_⟩
        · intro x hx
          exact hws x (List.erase_subset a s.workingSet hx)
        · intro p hp id2 hh
          rcases List.mem_or_eq_of_mem_set hp with hp' | hp'
          · exact hhold p hp' id2 hh
          · subst hp'
            exact absurd hh holdsId_idle_false
        · intro p hp id2 hh
          rcases List.mem_or_eq_of_mem_set hp with hp' | hp'
          · exact hholdnp p hp' id2 hh
          · subst hp'
            exact absurd hh holdsId_idle_false
        · intro x hx
          exact hwsnp x (List.erase_subset a s.workingSet hx)
  | workerAbort w =>
    simp only [dstepOnce, dstep] at hst
    cases hw : s.workers.get? w with
    | none =>
      rw [hw] at hst
      cases hst
    | some ph =>
      rw [hw] at hst
      cases ph with
      | idle => cases hst
      | claimed a => cases hst
      | checked a => cases hst
      | dead => cases hst
      | running a =>
        injection hst with hs'
        subst hs'
        refine ⟨hnd, hps, hpq, hws, ?_, ?_, hwsnp⟩
        · intro p hp id2 hh
          rcases List.mem_or_eq_of_mem_set hp with hp' | hp'
          · exact hhold p hp' id2 hh
          · subst hp'
            exact absurd hh holdsId_dead_false
        · intro p hp id2 hh
          rcases List.mem_or_eq_of_mem_set hp with hp' | hp'
          · exact hholdnp p hp' id2 hh
          · subst hp'
            exact absurd hh holdsId_dead_false

theorem dexecOnce_inv : ∀ (tr : List DEvent) (s s' : DaemonState),
    DaemonInv s → dexecOnce s tr = some s' → DaemonInv s' := by
  intro tr
  induction tr with
  | nil =>
    intro s s' h hex
    injection hex with hex'
    rw [← hex']
    exact h
  | cons e tr ih =>
    intro s s' h hex
    unfold dexecOnce at hex
    cases hstep : dstepOnce s e with
    | none =>
      rw [hstep] at hex
      cases hex
    | some s₁ =>
      rw [hstep] at hex
      exact ih s₁ s' (dstepOnce_inv s e s₁ h hstep) hex

theorem initDaemon_inv (w : Nat) : DaemonInv (initDaemon w) := by
  refine ⟨List.nodup_nil, ?_, ?_, ?_, ?_, ?_, ?_⟩
  · intro x hx
    cases hx
  · intro x hx
    cases hx
  · intro x hx
    cases hx
  · intro p hp id hh
    rw [List.eq_of_mem_replicate hp] at hh
    exact absurd hh holdsId_idle_false
  · intro p hp id hh
    rw [List.eq_of_mem_replicate hp] at hh
    exact absurd hh holdsId_idle_false
  · intro x hx
    cases hx

/-- Claim C1 counterexample: under the unrestricted interleaving of
scanner and worker steps, the trace in which the scanner re-enqueues an
instance after a worker has popped and prepared it reaches a state
where the instance is a key of both pending_instance_map_ and
working_instance_map_ — the intersection is not always empty. -/
theorem pending_working_intersection_counterexample :
    bothPendingAndWorking (dexec (initDaemon 1) c1Trace) "i" = true := by decide

/-- Claim C1, amended: in every execution in which the scanner enqueues
each instance id at most once (it may not re-enqueue an id it already
inserted while a worker still claims or runs it), every reachable state
keeps pending_instance_map_ and working_instance_map_ disjoint. -/
theorem pending_working_disjoint_once_enqueued (w : Nat) (tr : List DEvent)
    (s : DaemonState) (hex : dexecOnce (initDaemon w) tr = some s) :
    ∀ id, ¬(id ∈ s.pendingSet ∧ id ∈ s.workingSet) := by
  have hinv := dexecOnce_inv tr (initDaemon w) s (initDaemon_inv w) hex
  rintro id ⟨h1, h2⟩
  exact hinv.2.2.2.2.2.2 id h2 h1

/-- Witness for the amended C1 theorem: a once-enqueued trace with one
enqueue, a pop, the working re-check and a successful prepare executes,
and the reached state has disjoint pending and working maps. -/
theorem pending_working_disjoint_once_enqueued_witness :
    dexecOnce (initDaemon 1)
      [DEvent.scanEnqueue "a", DEvent.workerPop 0, DEvent.workerPassWorking 0,
       DEvent.workerPrepareOk 0] =
      some ⟨[], [], ["a"], ["a"], [WPhase.running "a"]⟩ ∧
    ∀ id, ¬(id ∈ (⟨[], [], ["a"], ["a"], [WPhase.running "a"]⟩ : DaemonState).pendingSet ∧
            id ∈ (⟨[], [], ["a"], ["a"], [WPhase.running "a"]⟩ : DaemonState).workingSet) :=
  ⟨by decide,
    pending_working_disjoint_once_enqueued 1
      [DEvent.scanEnqueue "a", DEvent.workerPop 0, DEvent.workerPassWorking 0,
       DEvent.workerPrepareOk 0] _ (by decide)⟩
